import Mathlib

/-!
A shallow embedding of the settings/templating pipeline of the `cargo-hatch`
project-scaffolding tool, together with theorems settling the specification
claims about it.

The embedding follows the Rust sources:
  * `src/settings/repo/mod.rs` — setting schema, validation, default
    resolution (`run`) and context building (`fill_context`);
  * `src/settings/repo/number_reader.rs`, `list_reader.rs`,
    `multi_list_reader.rs` — the interactive input readers;
  * `src/templates.rs` — ignore-rule filtering (`filter_ignored`) and
    rendering (`render`);
  * `src/main.rs` — target-directory preparation (`get_target_dir`) and the
    overall `generate_project` sequencing.

Modelling conventions:
  * Rust `i64` is modelled as `Int` and `f64` as `Rat`; the numeric code is
    generic over a linearly ordered type (mirroring the `T: Number` bound),
    so the range logic is stated once for any `LinearOrder`.  IEEE special
    values (NaN/infinity) are outside the model.
  * Interactive input (stdin lines, key events) is modelled as explicit
    input data; terminal drawing has no observable effect and is dropped.
  * Filesystem effects are modelled as an explicit trace of operations in
    program order; fallible external collaborators (the Tera template
    engine's `one_off` evaluation and template compilation, glob matching)
    are parameters of the functions that call them.
  * `HashSet<usize>` selections are modelled as `Finset ℕ`, `HashMap` /
    `IndexMap` as association lists in declaration order.
-/

namespace Hatch

/-! ## Errors

`ReadError` mirrors the reader error enum (`InvalidInput`, cancellation);
`AppError` stands for the `anyhow` errors produced by the pipeline. -/

inductive ReadError where
  | invalidInput (msg : String)
  | cancelled
  deriving DecidableEq, Repr

inductive AppError where
  | msg (s : String)
  deriving DecidableEq, Repr

/-! ## Setting schema (`src/settings/repo/mod.rs`) -/

/-- `BoolSetting { default: Option<bool> }`. -/
structure BoolSetting where
  default : Option Bool
  deriving DecidableEq, Repr

/-- `StringValidator` enum (the `Regex` payload is kept as its pattern). -/
inductive StringValidator where
  | crate
  | ident
  | semver
  | semverReq
  | regex (pattern : String)
  deriving DecidableEq, Repr

/-- `StringSetting { default: Option<String>, validator: Option<StringValidator> }`. -/
structure StringSetting where
  default : Option String
  validator : Option StringValidator
  deriving DecidableEq, Repr

/-- `NumberSetting<T> { min: T, max: T, default: Option<T> }`, used at
`T = i64` (here `Int`) and `T = f64` (here `Rat`). -/
structure NumberSetting (T : Type) where
  min : T
  max : T
  default : Option T
  deriving DecidableEq, Repr

/-- `ListSetting { values: IndexSet<String>, default: Option<String> }`; the
`IndexSet` keeps declaration order, modelled as a list. -/
structure ListSetting where
  values : List String
  default : Option String
  deriving DecidableEq, Repr

/-- `MultiListSetting { values: IndexSet<String>, default: Option<HashSet<String>> }`;
the unordered default set is modelled as a list queried by membership. -/
structure MultiListSetting where
  values : List String
  default : Option (List String)
  deriving DecidableEq, Repr

/-- The `SettingType` tagged union (`type` field of a setting). -/
inductive SettingType where
  | bool (s : BoolSetting)
  | string (s : StringSetting)
  | number (s : NumberSetting Int)
  | float (s : NumberSetting Rat)
  | list (s : ListSetting)
  | multiList (s : MultiListSetting)
  deriving DecidableEq, Repr

/-- `RepoSetting { description, condition: Option<String>, ty: SettingType }`. -/
structure RepoSetting where
  description : String
  condition : Option String
  ty : SettingType
  deriving DecidableEq, Repr

/-- `RepoSetting::validate_number`: reject `min >= max`, and reject a
declared default outside the half-open range `min..max`
(`(*min..*max).contains(d)` is `min <= d && d < max`). -/
def validate_number {T : Type} [LinearOrder T] (s : NumberSetting T) :
    Option String :=
  if s.min ≥ s.max then
    some "minimum is greater or equal the maximum value"
  else
    match s.default with
    | some d =>
        if ¬(s.min ≤ d ∧ d < s.max) then
          some "default value is not within the min/max range"
        else
          none
    | none => none

/-- `ListSetting` arm of `RepoSetting::validate`: a declared default must be
one of the possible values. -/
def validate_list (s : ListSetting) : Option String :=
  match s.default with
  | some d =>
      if ¬ s.values.contains d then
        some "default value isn't part of the possible values"
      else none
  | none => none

/-- `MultiListSetting` arm of `RepoSetting::validate`: every declared default
entry must be one of the possible values. -/
def validate_multi_list (s : MultiListSetting) : Option String :=
  match s.default with
  | some ds =>
      if ds.any (fun d => ¬ s.values.contains d) then
        some "one of the default values isn't part of the possible values"
      else none
  | none => none

/-- `RepoSetting::validate`: dispatch on the setting type; `Bool` and
`String` have no structural validation. -/
def RepoSetting.validate (s : RepoSetting) : Option String :=
  match s.ty with
  | .bool _ => none
  | .string _ => none
  | .number n => validate_number n
  | .float n => validate_number n
  | .list l => validate_list l
  | .multiList m => validate_multi_list m

/-! ## Number reader (`src/settings/repo/number_reader.rs`)

The reader prints the range, reads one stdin line, lowercases and trims it,
then either takes the default (empty input), rejects non-numbers, or range
checks the parsed value.  The trimmed line's parse outcome is the input of
the model. -/

/-- Parse outcome of the trimmed input line for `NumberReader::read`:
empty line, a line that does not parse as the numeric type, or a parsed
value. -/
inductive NumInput (T : Type) where
  | empty
  | notNum
  | val (v : T)
  deriving DecidableEq, Repr

namespace NumberReader

/-- `NumberReader::read`: empty input takes the default (an
`InvalidInput` error if none is declared); a parsed value is rejected
below `min` or above `max` and accepted otherwise. -/
def read {T : Type} [LinearOrder T] (s : NumberSetting T) (input : NumInput T) :
    Except ReadError T :=
  match input with
  | .empty =>
      match s.default with
      | some d => .ok d
      | none => .error (.invalidInput "must provide a value")
  | .notNum => .error (.invalidInput "not a number")
  | .val v =>
      if v < s.min then .error (.invalidInput "value is below the minimum")
      else if v > s.max then .error (.invalidInput "value is above the maximum")
      else .ok v

end NumberReader

end Hatch

namespace Hatch

/-! ## External defaults (`src/settings/global.rs`, `src/settings/repo/defaults.rs`) -/

/-- A resolved context value (what `fill_context` inserts): the payloads of
the six setting types. -/
inductive Value where
  | bool (b : Bool)
  | str (s : String)
  | num (n : Int)
  | float (q : Rat)
  | list (s : String)
  | multiList (xs : List String)
  deriving DecidableEq, Repr

/-- `DefaultValue` from the bookmark configuration (`global.rs`). -/
inductive DefaultValue where
  | bool (b : Bool)
  | str (s : String)
  | num (n : Int)
  | float (q : Rat)
  | list (s : String)
  | multiList (xs : List String)
  deriving DecidableEq, Repr

/-- `DefaultSetting { value: DefaultValue, skip_prompt: bool }`. -/
structure DefaultSetting where
  value : DefaultValue
  skip_prompt : Bool
  deriving DecidableEq, Repr

/-- `defaults::get_bool`: the external value must be the `bool` variant. -/
def get_bool (d : DefaultSetting) : Except AppError Bool :=
  match d.value with
  | .bool b => .ok b
  | _ => .error (.msg "invalid default value for boolean setting")

/-- `defaults::get_string`. -/
def get_string (d : DefaultSetting) : Except AppError String :=
  match d.value with
  | .str s => .ok s
  | _ => .error (.msg "invalid default value for string setting")

/-- `defaults::get_number`. -/
def get_number (d : DefaultSetting) : Except AppError Int :=
  match d.value with
  | .num n => .ok n
  | _ => .error (.msg "invalid default value for number setting")

/-- `defaults::get_float`. -/
def get_float (d : DefaultSetting) : Except AppError Rat :=
  match d.value with
  | .float q => .ok q
  | _ => .error (.msg "invalid default value for float setting")

/-- `defaults::get_list`. -/
def get_list (d : DefaultSetting) : Except AppError String :=
  match d.value with
  | .list s => .ok s
  | _ => .error (.msg "invalid default value for list setting")

/-- `defaults::get_multi_list`. -/
def get_multi_list (d : DefaultSetting) : Except AppError (List String) :=
  match d.value with
  | .multiList xs => .ok xs
  | _ => .error (.msg "invalid default value for multi-list setting")

/-! ## Default resolution (`run` in `src/settings/repo/mod.rs`)

`run` is generic over the setting type `S` and result type `R`, taking the
type-specific `load` (one of the `get_*` above), the `Setting::set_default`
method, and the type-specific interactive prompt.  The model additionally
records which of the two collaborators were invoked, as a trace of
`RunEvent`s in invocation order. -/

/-- Observable steps of one `run` invocation: the external default was
loaded, or the interactive prompt was invoked. -/
inductive RunEvent where
  | loadedDefault
  | prompted
  deriving DecidableEq, Repr

/-- `run`: no external default → prompt with the setting unchanged; external
default with `skip_prompt` → the loaded external value, never prompting;
external default without `skip_prompt` → seed the setting's own default
with the loaded value, then prompt. -/
def run {S R : Type} (setting : S) (description : String)
    (default : Option DefaultSetting)
    (load : DefaultSetting → Except AppError R)
    (setDefault : S → R → S)
    (prompt : String → S → Except AppError R) :
    Except AppError R × List RunEvent :=
  match default with
  | some d =>
      if d.skip_prompt then
        (load d, [.loadedDefault])
      else
        match load d with
        | .error e => (.error e, [.loadedDefault])
        | .ok v => (prompt description (setDefault setting v),
                    [.loadedDefault, .prompted])
  | none => (prompt description setting, [.prompted])

/-! ## Claim C4 — seed-then-maybe-skip default policy -/

/-- C4: with an external default and `skip_prompt = true`, the resolved
value is exactly the loaded external value and the prompt is never invoked
(the outcome is independent of the prompt function and no `prompted` event
occurs); with `skip_prompt = false` the prompt is invoked on the setting
whose own default has been replaced by the loaded external value; with no
external default the prompt is invoked on the setting unchanged.  The bool
instantiation pins the coercion: a `bool` external value resolves to that
very boolean via `get_bool`. -/
theorem run_default_policy {S R : Type} (setting : S) (description : String)
    (d : DefaultSetting) (v : R)
    (load : DefaultSetting → Except AppError R)
    (setDefault : S → R → S)
    (prompt : String → S → Except AppError R)
    (bs : BoolSetting) (b : Bool)
    (bprompt : String → BoolSetting → Except AppError Bool) :
    (d.skip_prompt = true →
      run setting description (some d) load setDefault prompt =
        (load d, [.loadedDefault])) ∧
    (d.skip_prompt = false → load d = .ok v →
      run setting description (some d) load setDefault prompt =
        (prompt description (setDefault setting v),
         [.loadedDefault, .prompted])) ∧
    (run setting description none load setDefault prompt =
      (prompt description setting, [.prompted])) ∧
    (run bs description (some ⟨.bool b, true⟩) get_bool
        (fun s v => { s with default := some v }) bprompt =
      (.ok b, [.loadedDefault])) := by
  refine ⟨?_, ?_, ?_, ?_⟩
  · intro h; simp [run, h]
  · intro h hload; simp [run, h, hload]
  · rfl
  · simp [run, get_bool]

/-- Witness for C4: a concrete bool setting with external default `false`
resolves to `false` without prompting when `skip_prompt` is set, and seeds
the prompt's default with `false` when it is not. -/
theorem run_default_policy_witness :
    run (⟨some true⟩ : BoolSetting) "use feature" (some ⟨.bool false, true⟩)
        get_bool (fun s v => { s with default := some v })
        (fun _ s => .ok (s.default.getD true)) =
      (.ok false, [.loadedDefault]) ∧
    run (⟨some true⟩ : BoolSetting) "use feature" (some ⟨.bool false, false⟩)
        get_bool (fun s v => { s with default := some v })
        (fun _ s => .ok (s.default.getD true)) =
      (.ok false, [.loadedDefault, .prompted]) := by
  have h := run_default_policy (⟨some true⟩ : BoolSetting) "use feature"
    ⟨.bool false, false⟩ false get_bool
    (fun s v => { s with default := some v })
    (fun _ s => .ok (s.default.getD true))
    (⟨some true⟩ : BoolSetting) false
    (fun _ s => .ok (s.default.getD true))
  refine ⟨h.2.2.2, ?_⟩
  have h2 := h.2.1 rfl (by simp [get_bool])
  simpa using h2

/-! ## Ignore rules and file classification (`src/templates.rs`)

The declarations of `IgnoreFrom` and `IgnorePattern` live in the settings
module; their shape here is pinned by every use in `templates.rs`
(`rule.ignore_from`, `rule.condition: Option<String>`, `rule.paths`, and the
three variants `All`/`Template`/`Render`). -/

/-- Modelled from the spec: the ignore-rule scope enum (`IgnoreFrom`), whose
declaration is not part of the extracted sources; `templates.rs` matches on
the three variants `All` (skip entirely), `Template` (exclude from
templating, i.e. copy verbatim) and `Render` (exclude from the render
stage). -/
inductive IgnoreFrom where
  | All
  | Template
  | Render
  deriving DecidableEq, Repr

/-- Modelled from the spec: an ignore rule (`IgnorePattern`), whose
declaration is not part of the extracted sources; `templates.rs` reads its
glob `paths`, optional boolean-expression `condition` and `ignore_from`
scope. -/
structure IgnorePattern where
  paths : List String
  condition : Option String
  ignore_from : IgnoreFrom
  deriving DecidableEq, Repr

/-- `RepoFile { path, name, ignore_from: Option<IgnoreFrom> }`: full source
path, path relative to the template root, and the current classification
marker (`none` = render as template, `some Template` = copy verbatim,
`some Render`/`some All` = excluded from the respective stage). -/
structure RepoFile where
  path : String
  name : String
  ignore_from : Option IgnoreFrom
  deriving DecidableEq, Repr

/-- Rust's `str::trim`: strip leading and trailing whitespace (modelled
over the character list). -/
def strTrim (s : String) : String :=
  String.mk
    (((s.toList.dropWhile Char.isWhitespace).reverse.dropWhile
      Char.isWhitespace).reverse)

/-- Rust's `str::parse::<bool>`: exactly `"true"` or `"false"`. -/
def parseBool (s : String) : Option Bool :=
  if s = "true" then some true
  else if s = "false" then some false
  else none

/-- `file_ignore_to_glob_set`: collect the glob patterns of every rule of
the requested scope whose condition (if any) renders, via the template
engine's `one_off` (the parameter `oneOff`; `none` models a render error),
to a string parsing as `true`.  A failing render or unparseable result is
an error; glob compilation itself is assumed well-formed (matching is the
abstract parameter `gm` below). -/
def file_ignore_to_glob_set {Γ : Type} (oneOff : String → Γ → Option String)
    (ctx : Γ) (ignoreFilter : IgnoreFrom) :
    List IgnorePattern → Except AppError (List String)
  | [] => .ok []
  | rule :: rest =>
    if rule.ignore_from = ignoreFilter then
      match rule.condition with
      | some c =>
          match oneOff c ctx with
          | none => .error (.msg "condition render failed")
          | some r =>
              match parseBool (strTrim r) with
              | none => .error (.msg "condition is not a boolean")
              | some false => file_ignore_to_glob_set oneOff ctx ignoreFilter rest
              | some true =>
                  (file_ignore_to_glob_set oneOff ctx ignoreFilter rest).map
                    (rule.paths ++ ·)
      | none =>
          (file_ignore_to_glob_set oneOff ctx ignoreFilter rest).map
            (rule.paths ++ ·)
    else
      file_ignore_to_glob_set oneOff ctx ignoreFilter rest

/-- `GlobSet::is_match`: the combined matcher matches a path when any of
its patterns does; `gm` is the single-glob matcher (globset with
`literal_separator(true)`), an external collaborator kept abstract. -/
def isMatch (gm : String → String → Bool) (set : List String)
    (name : String) : Bool :=
  set.any (fun pat => gm pat name)

/-- `filter_ignored`: build the three scope matchers, then drop every file
matching the `All` matcher and re-mark the rest — `Template` match forces
`some Template`, else a `Render` match forces `some Render`, else the
content-sniffed marker is kept. -/
def filter_ignored {Γ : Type} (gm : String → String → Bool)
    (oneOff : String → Γ → Option String) (files : List RepoFile) (ctx : Γ)
    (ignore : List IgnorePattern) : Except AppError (List RepoFile) := do
  let template_ignore ← file_ignore_to_glob_set oneOff ctx .Template ignore
  let render_ignore ← file_ignore_to_glob_set oneOff ctx .Render ignore
  let all_ignore ← file_ignore_to_glob_set oneOff ctx .All ignore
  .ok (files.filterMap (fun file =>
    if isMatch gm all_ignore file.name then
      none
    else
      some { file with ignore_from :=
        (if isMatch gm template_ignore file.name then some .Template
         else if isMatch gm render_ignore file.name then some .Render
         else file.ignore_from) }))

/-! ## Renderer (`render` in `src/templates.rs`)

The renderer's filesystem effects are modelled as a trace of operations in
program order.  Template compilation (`Tera::add_template_files`, reading
each file at its full path) and per-file rendering (`Tera::render_to`) are
external collaborators, abstracted as the predicates `compileOk` (keyed by
source path) and `renderOk` (keyed by template name); I/O primitives that
the code only propagates (`File::create`, `fs::copy`) are assumed to
succeed. -/

/-- One filesystem effect of `render`: creating the target root, creating a
file's parent directories under the target, writing a rendered template, or
byte-copying a source file. -/
inductive FsOp where
  | createDirAllTarget
  | createDirParent (parent : String)
  | writeRendered (name : String)
  | copyFile (name : String)
  deriving DecidableEq, Repr

/-- `Utf8Path::parent` of a relative file name: `none` only for the empty
path, the empty string for a bare file name, otherwise everything before
the last separator. -/
def pathParent (name : String) : Option String :=
  if name = "" then none
  else
    let cs := name.toList
    if cs.contains '/' then
      some (String.mk (((cs.reverse.dropWhile (fun c => c ≠ '/')).drop 1).reverse))
    else
      some ""

/-- The filter `matches!(f.ignore_from, None | Some(IgnoreFrom::Render))`
selecting which files are loaded into the template engine. -/
def isTemplateFile (f : RepoFile) : Bool :=
  match f.ignore_from with
  | none => true
  | some .Render => true
  | some _ => false

/-- The `if let Some(parent) = file.name.parent() { fs::create_dir_all(..) }`
step at the head of the per-file loop of `render`. -/
def parentOps (f : RepoFile) : List FsOp :=
  match pathParent f.name with
  | some p => [.createDirParent p]
  | none => []

/-- The per-file loop of `render`: ensure the parent directory, then write
the rendered template (`ignore_from = None`), copy the file verbatim
(`Some(Template)`), or do nothing (`Some(Render)`/`Some(All)`).  A failing
render aborts the loop after the file was created. -/
def renderLoop (renderOk : String → Bool) :
    List RepoFile → List FsOp × Option AppError
  | [] => ([], none)
  | f :: fs =>
    match f.ignore_from with
    | none =>
        if renderOk f.name then
          let (ops, err) := renderLoop renderOk fs
          (parentOps f ++ FsOp.writeRendered f.name :: ops, err)
        else
          (parentOps f ++ [FsOp.writeRendered f.name],
           some (.msg "failed to render template"))
    | some .Template =>
        let (ops, err) := renderLoop renderOk fs
        (parentOps f ++ FsOp.copyFile f.name :: ops, err)
    | some _ =>
        let (ops, err) := renderLoop renderOk fs
        (parentOps f ++ ops, err)

/-- `render`: first compile every template-eligible file (name and
`Render`-marked alike) into the shared engine — any compile failure aborts
before any filesystem effect — then create the target root and run the
per-file loop. -/
def render (compileOk : String → Bool) (renderOk : String → Bool)
    (files : List RepoFile) : List FsOp × Option AppError :=
  if (files.filter (fun f => isTemplateFile f)).all (fun f => compileOk f.path)
  then
    (FsOp.createDirAllTarget :: (renderLoop renderOk files).1,
     (renderLoop renderOk files).2)
  else
    ([], some (.msg "failed loading templates"))

/-- Helper: a parent-directory creation step never writes or copies a
file. -/
theorem parentOps_no_write (f : RepoFile) (op : FsOp) (h : op ∈ parentOps f) :
    ∃ p, op = FsOp.createDirParent p := by
  unfold parentOps at h
  cases hpar : pathParent f.name <;> simp [hpar] at h
  exact ⟨_, h⟩

/-- Helper: every effect emitted by the per-file loop is attributable to a
file in the list — a parent-directory creation, a rendered write of a file
with marker `none`, or a verbatim copy of a file with marker
`some Template`. -/
theorem mem_renderLoop_ops (renderOk : String → Bool) (fs : List RepoFile)
    (op : FsOp) :
    op ∈ (renderLoop renderOk fs).1 →
    ∃ f ∈ fs, op ∈ parentOps f ∨
      (f.ignore_from = none ∧ op = .writeRendered f.name) ∨
      (f.ignore_from = some .Template ∧ op = .copyFile f.name) := by
  induction fs with
  | nil => intro h; simp [renderLoop] at h
  | cons f fs ih =>
      intro h
      simp only [renderLoop] at h
      cases hig : f.ignore_from with
      | none =>
          by_cases hr : renderOk f.name
          · rw [hig] at h
            simp only [hr, if_true] at h
            rcases List.mem_append.mp h with h1 | h2
            · exact ⟨f, List.mem_cons_self f fs, Or.inl h1⟩
            · rcases List.mem_cons.mp h2 with h3 | h4
              · exact ⟨f, List.mem_cons_self f fs, Or.inr (Or.inl ⟨hig, h3⟩)⟩
              · obtain ⟨g, hg, hc⟩ := ih h4
                exact ⟨g, List.mem_cons_of_mem f hg, hc⟩
          · rw [hig] at h
            simp only [hr, if_false] at h
            rcases List.mem_append.mp h with h1 | h2
            · exact ⟨f, List.mem_cons_self f fs, Or.inl h1⟩
            · rcases List.mem_cons.mp h2 with h3 | h4
              · exact ⟨f, List.mem_cons_self f fs, Or.inr (Or.inl ⟨hig, h3⟩)⟩
              · simp at h4
      | some i =>
          cases i with
          | Template =>
              rw [hig] at h
              rcases List.mem_append.mp h with h1 | h2
              · exact ⟨f, List.mem_cons_self f fs, Or.inl h1⟩
              · rcases List.mem_cons.mp h2 with h3 | h4
                · exact ⟨f, List.mem_cons_self f fs,
                    Or.inr (Or.inr ⟨hig, h3⟩)⟩
                · obtain ⟨g, hg, hc⟩ := ih h4
                  exact ⟨g, List.mem_cons_of_mem f hg, hc⟩
          | All =>
              rw [hig] at h
              rcases List.mem_append.mp h with h1 | h2
              · exact ⟨f, List.mem_cons_self f fs, Or.inl h1⟩
              · obtain ⟨g, hg, hc⟩ := ih h2
                exact ⟨g, List.mem_cons_of_mem f hg, hc⟩
          | Render =>
              rw [hig] at h
              rcases List.mem_append.mp h with h1 | h2
              · exact ⟨f, List.mem_cons_self f fs, Or.inl h1⟩
              · obtain ⟨g, hg, hc⟩ := ih h2
                exact ⟨g, List.mem_cons_of_mem f hg, hc⟩

/-- Helper: a `writeRendered` effect only arises from a file in the list
whose marker is `none`. -/
theorem renderLoop_write_mem (renderOk : String → Bool) (fs : List RepoFile)
    (n : String) (h : FsOp.writeRendered n ∈ (renderLoop renderOk fs).1) :
    ∃ g ∈ fs, g.name = n ∧ g.ignore_from = none := by
  obtain ⟨f, hf, hc⟩ := mem_renderLoop_ops renderOk fs _ h
  rcases hc with h1 | ⟨hig, heq⟩ | ⟨hig, heq⟩
  · obtain ⟨p, hp⟩ := parentOps_no_write f _ h1
    simp at hp
  · exact ⟨f, hf, by injection heq with h'; exact h'.symm, hig⟩
  · simp at heq

/-- Helper: a `copyFile` effect only arises from a file in the list whose
marker is `some Template`. -/
theorem renderLoop_copy_mem (renderOk : String → Bool) (fs : List RepoFile)
    (n : String) (h : FsOp.copyFile n ∈ (renderLoop renderOk fs).1) :
    ∃ g ∈ fs, g.name = n ∧ g.ignore_from = some .Template := by
  obtain ⟨f, hf, hc⟩ := mem_renderLoop_ops renderOk fs _ h
  rcases hc with h1 | ⟨hig, heq⟩ | ⟨hig, heq⟩
  · obtain ⟨p, hp⟩ := parentOps_no_write f _ h1
    simp at hp
  · simp at heq
  · exact ⟨f, hf, by injection heq with h'; exact h'.symm, hig⟩

/-- Helper: if no file of the list carries a given name, the renderer
neither writes nor copies anything under that name. -/
theorem render_no_ops_for_name (compileOk renderOk : String → Bool)
    (out : List RepoFile) (n : String) (hn : ∀ g ∈ out, g.name ≠ n) :
    FsOp.writeRendered n ∉ (render compileOk renderOk out).1 ∧
    FsOp.copyFile n ∉ (render compileOk renderOk out).1 := by
  constructor <;> intro hmem <;> unfold render at hmem <;> split at hmem
  · rcases List.mem_cons.mp hmem with h1 | h2
    · simp at h1
    · obtain ⟨g, hg, hgn, -⟩ := renderLoop_write_mem renderOk _ _ h2
      exact hn g hg hgn
  · simp at hmem
  · rcases List.mem_cons.mp hmem with h1 | h2
    · simp at h1
    · obtain ⟨g, hg, hgn, -⟩ := renderLoop_copy_mem renderOk _ _ h2
      exact hn g hg hgn
  · simp at hmem

/-! ## Claim C3 — ignore-scope precedence -/

/-- C3: a collected file matching the combined matcher of active `All`
rules is removed from the output entirely — no output entry carries its
name and the renderer neither writes nor copies it — regardless of the
other matchers; otherwise a `Template` match forces `some Template` (even
when the `Render` matcher also matches), else a `Render` match forces
`some Render`, and a file matching no matcher keeps its content-sniffed
marker. -/
theorem filter_ignored_precedence {Γ : Type} (gm : String → String → Bool)
    (oneOff : String → Γ → Option String) (ctx : Γ)
    (ignore : List IgnorePattern) (files : List RepoFile)
    (tset rset aset : List String)
    (hT : file_ignore_to_glob_set oneOff ctx .Template ignore = .ok tset)
    (hR : file_ignore_to_glob_set oneOff ctx .Render ignore = .ok rset)
    (hA : file_ignore_to_glob_set oneOff ctx .All ignore = .ok aset)
    (file : RepoFile) (hf : file ∈ files) :
    ∃ out, filter_ignored gm oneOff files ctx ignore = .ok out ∧
      (isMatch gm aset file.name = true →
        (∀ g ∈ out, g.name ≠ file.name) ∧
        ∀ compileOk renderOk : String → Bool,
          FsOp.writeRendered file.name ∉ (render compileOk renderOk out).1 ∧
          FsOp.copyFile file.name ∉ (render compileOk renderOk out).1) ∧
      (isMatch gm aset file.name = false →
        isMatch gm tset file.name = true →
        { file with ignore_from := some .Template } ∈ out) ∧
      (isMatch gm aset file.name = false →
        isMatch gm tset file.name = false →
        isMatch gm rset file.name = true →
        { file with ignore_from := some .Render } ∈ out) ∧
      (isMatch gm aset file.name = false →
        isMatch gm tset file.name = false →
        isMatch gm rset file.name = false →
        file ∈ out) := by
  refine ⟨files.filterMap (fun f =>
    if isMatch gm aset f.name then none
    else some { f with ignore_from :=
      (if isMatch gm tset f.name then some .Template
       else if isMatch gm rset f.name then some .Render
       else f.ignore_from) }), ?_, ?_, ?_, ?_, ?_⟩
  · rw [filter_ignored, hT, hR, hA]
    rfl
  · intro hall
    have hout : ∀ g, g ∈ files.filterMap (fun f =>
        if isMatch gm aset f.name then none
        else some { f with ignore_from :=
          (if isMatch gm tset f.name then some .Template
           else if isMatch gm rset f.name then some .Render
           else f.ignore_from) }) → g.name ≠ file.name := by
      intro g hg hne
      obtain ⟨orig, horig, heq⟩ := List.mem_filterMap.mp hg
      by_cases ha : isMatch gm aset orig.name = true
      · rw [if_pos ha] at heq
        exact Option.noConfusion heq
      · rw [if_neg ha] at heq
        injection heq with heq2
        have hname : orig.name = g.name := by
          simpa using congrArg RepoFile.name heq2
        exact ha (by rw [hname, hne]; exact hall)
    exact ⟨hout, fun compileOk renderOk =>
      render_no_ops_for_name compileOk renderOk _ _ hout⟩
  · intro ha ht
    refine List.mem_filterMap.mpr ⟨file, hf, ?_⟩
    simp [ha, ht]
  · intro ha ht hr
    refine List.mem_filterMap.mpr ⟨file, hf, ?_⟩
    simp [ha, ht, hr]
  · intro ha ht hr
    refine List.mem_filterMap.mpr ⟨file, hf, ?_⟩
    simp [ha, ht, hr]

/-- Witness for C3: two rules (`All` on `target`, `Template` on the same
path plus `README.md`); the doubly-matched `target` file is dropped while
`README.md` is forced to copy-verbatim and `src/main.rs` keeps its marker.
Glob matching is instantiated with string equality, enough for the literal
patterns involved. -/
theorem filter_ignored_precedence_witness :
    ∃ out, filter_ignored (fun pat name => pat == name)
        (fun (_ : String) (_ : Unit) => some "true")
        [⟨"/t/target", "target", none⟩, ⟨"/t/README.md", "README.md", none⟩,
         ⟨"/t/src/main.rs", "src/main.rs", none⟩] ()
        [⟨["target"], none, .All⟩, ⟨["target", "README.md"], none, .Template⟩]
        = .ok out ∧
      (∀ g ∈ out, g.name ≠ "target") ∧
      ({ path := "/t/README.md", name := "README.md",
         ignore_from := some .Template } : RepoFile) ∈ out ∧
      ({ path := "/t/src/main.rs", name := "src/main.rs",
         ignore_from := none } : RepoFile) ∈ out := by
  obtain ⟨out, hout, hall, -, -, -⟩ :=
    filter_ignored_precedence (fun pat name => pat == name)
      (fun (_ : String) (_ : Unit) => some "true") ()
      [⟨["target"], none, .All⟩, ⟨["target", "README.md"], none, .Template⟩]
      [⟨"/t/target", "target", none⟩, ⟨"/t/README.md", "README.md", none⟩,
       ⟨"/t/src/main.rs", "src/main.rs", none⟩]
      ["target", "README.md"] [] ["target"] (by rfl) (by rfl) (by rfl)
      ⟨"/t/target", "target", none⟩ (by simp)
  obtain ⟨out2, hout2, -, htmpl, -, -⟩ :=
    filter_ignored_precedence (fun pat name => pat == name)
      (fun (_ : String) (_ : Unit) => some "true") ()
      [⟨["target"], none, .All⟩, ⟨["target", "README.md"], none, .Template⟩]
      [⟨"/t/target", "target", none⟩, ⟨"/t/README.md", "README.md", none⟩,
       ⟨"/t/src/main.rs", "src/main.rs", none⟩]
      ["target", "README.md"] [] ["target"] (by rfl) (by rfl) (by rfl)
      ⟨"/t/README.md", "README.md", none⟩ (by simp)
  obtain ⟨out3, hout3, -, -, -, hkeep⟩ :=
    filter_ignored_precedence (fun pat name => pat == name)
      (fun (_ : String) (_ : Unit) => some "true") ()
      [⟨["target"], none, .All⟩, ⟨["target", "README.md"], none, .Template⟩]
      [⟨"/t/target", "target", none⟩, ⟨"/t/README.md", "README.md", none⟩,
       ⟨"/t/src/main.rs", "src/main.rs", none⟩]
      ["target", "README.md"] [] ["target"] (by rfl) (by rfl) (by rfl)
      ⟨"/t/src/main.rs", "src/main.rs", none⟩ (by simp)
  refine ⟨out, hout, hall (by rfl) |>.1, ?_, ?_⟩
  · have : out2 = out := by rw [hout2] at hout; injection hout
    rw [← this]
    exact htmpl (by rfl) (by rfl)
  · have : out3 = out := by rw [hout3] at hout; injection hout
    rw [← this]
    exact hkeep (by rfl) (by rfl) (by rfl)

/-! ## Claim C1 — the fate of `Render`-marked files

`filter_ignored` does force the marker of a `Render`-scope match to
`some Render`, and `render` loads every such file into the template engine
(`matches!(.., None | Some(IgnoreFrom::Render))`) — but the per-file write
loop only writes files whose marker is `None` (and copies `Some(Template)`);
its `_ => {}` arm drops `Some(Render)` files, so they are never written to
the target. -/

/-- Counterexample to C1 as stated: a single text file matching one active
`Render`-scope rule (and no `All` rule) is marked `some Render` by
`filter_ignored`, yet `render` — with every compilation and render
succeeding — produces only directory-creation effects: the file is never
written to the target at its relative path. -/
theorem render_only_not_written_cex :
    filter_ignored (fun pat name => pat == name)
        (fun (_ : String) (_ : Unit) => some "true")
        [⟨"/t/header.html", "header.html", none⟩] ()
        [⟨["header.html"], none, .Render⟩] =
      .ok [⟨"/t/header.html", "header.html", some .Render⟩] ∧
    render (fun _ => true) (fun _ => true)
        [⟨"/t/header.html", "header.html", some .Render⟩] =
      ([FsOp.createDirAllTarget, FsOp.createDirParent ""], none) := by
  constructor <;> rfl

/-- C1 as amended: a collected file matching an active `Render`-scope rule
and neither the `All` nor the `Template` matcher has its marker forced to
`some Render`; the renderer loads it into the shared template engine (it is
among the compiled template files), but — names being unique — it writes no
rendered output and no copy for it into the target. -/
theorem render_only_compiled_not_written {Γ : Type}
    (gm : String → String → Bool) (oneOff : String → Γ → Option String)
    (ctx : Γ) (ignore : List IgnorePattern) (files : List RepoFile)
    (tset rset aset : List String)
    (hT : file_ignore_to_glob_set oneOff ctx .Template ignore = .ok tset)
    (hR : file_ignore_to_glob_set oneOff ctx .Render ignore = .ok rset)
    (hA : file_ignore_to_glob_set oneOff ctx .All ignore = .ok aset)
    (file : RepoFile) (hf : file ∈ files)
    (huniq : ∀ g ∈ files, g.name = file.name → g = file)
    (ha : isMatch gm aset file.name = false)
    (ht : isMatch gm tset file.name = false)
    (hr : isMatch gm rset file.name = true) :
    ∃ out, filter_ignored gm oneOff files ctx ignore = .ok out ∧
      { file with ignore_from := some .Render } ∈ out ∧
      isTemplateFile { file with ignore_from := some .Render } = true ∧
      { file with ignore_from := some .Render } ∈
        out.filter (fun f => isTemplateFile f) ∧
      ∀ compileOk renderOk : String → Bool,
        FsOp.writeRendered file.name ∉ (render compileOk renderOk out).1 ∧
        FsOp.copyFile file.name ∉ (render compileOk renderOk out).1 := by
  refine ⟨files.filterMap (fun f =>
    if isMatch gm aset f.name then none
    else some { f with ignore_from :=
      (if isMatch gm tset f.name then some .Template
       else if isMatch gm rset f.name then some .Render
       else f.ignore_from) }), ?_, ?_, rfl, ?_, ?_⟩
  · rw [filter_ignored, hT, hR, hA]
    rfl
  · refine List.mem_filterMap.mpr ⟨file, hf, ?_⟩
    simp [ha, ht, hr]
  · refine List.mem_filter.mpr ⟨?_, rfl⟩
    refine List.mem_filterMap.mpr ⟨file, hf, ?_⟩
    simp [ha, ht, hr]
  · -- every output entry carrying this name is the Render-marked file
    have hmark : ∀ g, g ∈ files.filterMap (fun f =>
        if isMatch gm aset f.name then none
        else some { f with ignore_from :=
          (if isMatch gm tset f.name then some .Template
           else if isMatch gm rset f.name then some .Render
           else f.ignore_from) }) → g.name = file.name →
        g.ignore_from = some .Render := by
      intro g hg hne
      obtain ⟨orig, horig, heq⟩ := List.mem_filterMap.mp hg
      by_cases hao : isMatch gm aset orig.name = true
      · rw [if_pos hao] at heq
        exact Option.noConfusion heq
      · rw [if_neg hao] at heq
        injection heq with heq2
        have hname : orig.name = g.name := by
          simpa using congrArg RepoFile.name heq2
        have horigfile : orig = file := huniq orig horig (hname.trans hne)
        rw [← heq2, horigfile]
        simp [ha, ht, hr]
    intro compileOk renderOk
    constructor
    · intro hmem
      unfold render at hmem
      split at hmem
      · rcases List.mem_cons.mp hmem with h1 | h2
        · simp at h1
        · obtain ⟨g, hg, hgn, hgi⟩ := renderLoop_write_mem renderOk _ _ h2
          have := hmark g hg hgn
          rw [hgi] at this
          exact Option.noConfusion this
      · simp at hmem
    · intro hmem
      unfold render at hmem
      split at hmem
      · rcases List.mem_cons.mp hmem with h1 | h2
        · simp at h1
        · obtain ⟨g, hg, hgn, hgi⟩ := renderLoop_copy_mem renderOk _ _ h2
          have := hmark g hg hgn
          rw [hgi] at this
          injection this with this2
          exact IgnoreFrom.noConfusion this2
      · simp at hmem

/-- Witness for the amended C1, at the counterexample's input: the single
`Render`-matching file ends up marked, compiled, and unwritten. -/
theorem render_only_compiled_not_written_witness :
    ∃ out, filter_ignored (fun pat name => pat == name)
        (fun (_ : String) (_ : Unit) => some "true")
        [⟨"/t/header.html", "header.html", none⟩] ()
        [⟨["header.html"], none, .Render⟩] = .ok out ∧
      (⟨"/t/header.html", "header.html", some .Render⟩ : RepoFile) ∈ out ∧
      isTemplateFile ⟨"/t/header.html", "header.html", some .Render⟩ = true ∧
      (⟨"/t/header.html", "header.html", some .Render⟩ : RepoFile) ∈
        out.filter (fun f => isTemplateFile f) ∧
      ∀ compileOk renderOk : String → Bool,
        FsOp.writeRendered "header.html" ∉ (render compileOk renderOk out).1 ∧
        FsOp.copyFile "header.html" ∉ (render compileOk renderOk out).1 := by
  have h := render_only_compiled_not_written (fun pat name => pat == name)
    (fun (_ : String) (_ : Unit) => some "true") ()
    [⟨["header.html"], none, .Render⟩]
    [⟨"/t/header.html", "header.html", none⟩]
    [] ["header.html"] [] (by rfl) (by rfl) (by rfl)
    ⟨"/t/header.html", "header.html", none⟩ (by simp)
    (by intro g hg hn; simpa using hg) (by rfl) (by rfl) (by rfl)
  exact h

/-! ## Claim C5 — compile-before-write -/

/-- C5: if any file classified as a template (marker `none` or
`some Render`) fails to compile, `render` returns an error having produced
no filesystem effect at all — in particular neither the target directory
nor any file has been created. -/
theorem render_compile_failure_no_output (compileOk renderOk : String → Bool)
    (files : List RepoFile) (f : RepoFile) (hf : f ∈ files)
    (htpl : isTemplateFile f = true) (hfail : compileOk f.path = false) :
    (render compileOk renderOk files).1 = [] ∧
    (render compileOk renderOk files).2.isSome := by
  have hall : ((files.filter (fun g => isTemplateFile g)).all
      (fun g => compileOk g.path)) = false := by
    apply List.all_eq_false.mpr
    exact ⟨f, List.mem_filter.mpr ⟨hf, htpl⟩, by simp [hfail]⟩
  unfold render
  rw [hall]
  simp

/-- Witness for C5: one template file whose compilation fails yields an
error and an empty effect trace. -/
theorem render_compile_failure_no_output_witness :
    (render (fun _ => false) (fun _ => true)
      [⟨"/t/Cargo.toml", "Cargo.toml", none⟩]).1 = [] ∧
    (render (fun _ => false) (fun _ => true)
      [⟨"/t/Cargo.toml", "Cargo.toml", none⟩]).2.isSome :=
  render_compile_failure_no_output (fun _ => false) (fun _ => true)
    [⟨"/t/Cargo.toml", "Cargo.toml", none⟩]
    ⟨"/t/Cargo.toml", "Cargo.toml", none⟩ (by simp) (by rfl) (by rfl)

/-! ## Target preparation and run sequencing (`src/main.rs`)

`generate_project` prepares the target directory first
(`get_target_dir`), then collects files, loads and validates the repo
settings, builds and fills the context (all prompting happens there),
filters and renders, optionally updates dependencies, and initialises the
repository.  The steps after target preparation are excluded collaborators
here, abstracted to success flags; the run is modelled as the trace of
steps reached. -/

/-- The filesystem facts `get_target_dir` queries about a path: `exists()`,
`is_dir()`, and whether `read_dir()` yields no entry. -/
structure TargetFs where
  pathExists : String → Bool
  isDir : String → Bool
  isEmptyDir : String → Bool

/-- `Path::join` of the current directory and a project name. -/
def joinPath (dir name : String) : String := dir ++ "/" ++ name

/-- The name/target resolution at the head of `get_target_dir`: an explicit
name puts the target under the current directory; otherwise the current
directory itself is the target, its file name the project name (an error if
it has none). -/
def resolveTarget (cwd : String) (cwdFileName : Option String)
    (name : Option String) : Except AppError (String × String) :=
  match name with
  | some n => .ok (n, joinPath cwd n)
  | none =>
      match cwdFileName with
      | some f => .ok (f, cwd)
      | none => .error (.msg "current directory cannot be used as project name")

/-- `get_target_dir`: after resolving the target path, fail when it exists
and is not a directory (`ensure!(!exists || out.is_dir())`), then fail when
it exists and is not empty. -/
def get_target_dir (fs : TargetFs) (cwd : String) (cwdFileName : Option String)
    (name : Option String) : Except AppError (String × String) :=
  match resolveTarget cwd cwdFileName name with
  | .error e => .error e
  | .ok (n, out) =>
      if fs.pathExists out && !fs.isDir out then
        .error (.msg "target path is not a directory")
      else if fs.pathExists out && !fs.isEmptyDir out then
        .error (.msg "the target directory is not empty")
      else
        .ok (n, out)

/-- The successive steps of `generate_project`, in program order. -/
inductive GenStep where
  | prepareTarget
  | collectFiles
  | loadSettings
  | newContext
  | fillContext
  | filterIgnored
  | renderStep
  | updateDeps
  | gitInit
  deriving DecidableEq, Repr

/-- The inputs of one `generate_project` run: the ambient
directory/filesystem state and the outcomes of the steps whose internals
are modelled elsewhere (or are excluded collaborators). -/
structure GenEnv where
  fs : TargetFs
  cwd : String
  cwdFileName : Option String
  flagsName : Option String
  updateDepsFlag : Bool
  collectOk : Bool
  loadOk : Bool
  newCtxOk : Bool
  fillOk : Bool
  filterOk : Bool
  renderOk : Bool
  updateOk : Bool
  initOk : Bool

/-- Run a sequence of steps, each aborting the rest on failure. -/
def runSteps : List (GenStep × Bool) → List GenStep × Option AppError
  | [] => ([], none)
  | (s, ok) :: rest =>
      if ok then
        ((runSteps rest).1.cons s, (runSteps rest).2)
      else
        ([s], some (.msg "step failed"))

/-- `generate_project`: prepare the target directory first — an error there
ends the run before anything else — then run the remaining steps in
program order (`update_deps` only when its flag is set). -/
def generate_project (env : GenEnv) : List GenStep × Option AppError :=
  match get_target_dir env.fs env.cwd env.cwdFileName env.flagsName with
  | .error e => ([.prepareTarget], some e)
  | .ok _ =>
      let rest := runSteps
        ([(.collectFiles, env.collectOk), (.loadSettings, env.loadOk),
          (.newContext, env.newCtxOk), (.fillContext, env.fillOk),
          (.filterIgnored, env.filterOk), (.renderStep, env.renderOk)] ++
         (if env.updateDepsFlag then [(GenStep.updateDeps, env.updateOk)]
          else []) ++
         [(.gitInit, env.initOk)])
      (GenStep.prepareTarget :: rest.1, rest.2)

/-! ## Claim C9 — target validated before any other work -/

/-- C9: when the resolved target path exists and is not a directory, or is
a non-empty directory, the run fails with only the target-preparation step
performed — no file collection, prompting, or rendering happened; and
whenever the render step is reached, the target was missing or an empty
directory at the start of the run. -/
theorem generate_project_target_guard (env : GenEnv) (n out : String)
    (hres : resolveTarget env.cwd env.cwdFileName env.flagsName =
      .ok (n, out)) :
    (env.fs.pathExists out = true →
      env.fs.isDir out = false ∨ env.fs.isEmptyDir out = false →
      (generate_project env).1 = [.prepareTarget] ∧
      (generate_project env).2.isSome) ∧
    (GenStep.renderStep ∈ (generate_project env).1 →
      env.fs.pathExists out = false ∨
      (env.fs.isDir out = true ∧ env.fs.isEmptyDir out = true)) := by
  constructor
  · intro hex hbad
    have herr : ∃ e, get_target_dir env.fs env.cwd env.cwdFileName
        env.flagsName = .error e := by
      unfold get_target_dir
      rw [hres]
      rcases hbad with hd | he
      · simp [hex, hd]
      · cases hd : env.fs.isDir out
        · simp [hex, hd]
        · simp [hex, hd, he]
    obtain ⟨e, he⟩ := herr
    unfold generate_project
    rw [he]
    exact ⟨rfl, rfl⟩
  · intro hmem
    by_cases hex : env.fs.pathExists out = true
    · right
      by_cases hd : env.fs.isDir out = true
      · refine ⟨hd, ?_⟩
        by_cases hemp : env.fs.isEmptyDir out = true
        · exact hemp
        · exfalso
          have herr : get_target_dir env.fs env.cwd env.cwdFileName
              env.flagsName = .error (.msg "the target directory is not empty") := by
            unfold get_target_dir
            rw [hres]
            simp [hex, hd, Bool.eq_false_iff.mpr hemp]
          unfold generate_project at hmem
          rw [herr] at hmem
          simp at hmem
      · exfalso
        have herr : get_target_dir env.fs env.cwd env.cwdFileName
            env.flagsName = .error (.msg "target path is not a directory") := by
          unfold get_target_dir
          rw [hres]
          simp [hex, Bool.eq_false_iff.mpr hd]
        unfold generate_project at hmem
        rw [herr] at hmem
        simp at hmem
    · exact Or.inl (Bool.eq_false_iff.mpr hex)

/-- Witness for C9: a run whose target exists as a non-empty directory
stops at target preparation; the same run against a missing target reaches
the render step. -/
theorem generate_project_target_guard_witness :
    (generate_project
      ⟨⟨fun _ => true, fun _ => true, fun _ => false⟩, "/home/u", some "u",
        some "demo", false, true, true, true, true, true, true, true, true⟩).1
      = [.prepareTarget] ∧
    GenStep.renderStep ∈ (generate_project
      ⟨⟨fun _ => false, fun _ => false, fun _ => false⟩, "/home/u", some "u",
        some "demo", false, true, true, true, true, true, true, true, true⟩).1 ∧
    ((generate_project
      ⟨⟨fun _ => false, fun _ => false, fun _ => false⟩, "/home/u", some "u",
        some "demo", false, true, true, true, true, true, true, true, true⟩).1
      = [.prepareTarget, .collectFiles, .loadSettings, .newContext,
         .fillContext, .filterIgnored, .renderStep, .gitInit]) := by
  refine ⟨?_, ?_, ?_⟩
  · exact (generate_project_target_guard
      ⟨⟨fun _ => true, fun _ => true, fun _ => false⟩, "/home/u", some "u",
        some "demo", false, true, true, true, true, true, true, true, true⟩
      "demo" "/home/u/demo" rfl).1 rfl (Or.inr rfl) |>.1
  · decide
  · decide

/-! ## List reader (`src/settings/repo/list_reader.rs`)

The single-choice prompt is a cursor loop over key events: `Up`/`Down` move
the cursor with wrap-around, `Ctrl+C` cancels, `Enter` (here: the end of
the event list) finalises with `values[index]` — a panic when the index is
out of bounds, which happens exactly on an empty values set.  The cursor
arithmetic `len - 1` is modelled with truncated `Nat` subtraction; on an
empty set the Rust code already panics (debug) or wraps (release) there,
and either way no element can be returned. -/

/-- `Iterator::position`: the index of the first element satisfying the
predicate. -/
def position {α : Type} (p : α → Bool) : List α → Option Nat
  | [] => none
  | x :: xs => if p x then some 0 else (position p xs).map (· + 1)

/-- Helper: a found position is within bounds. -/
theorem position_lt_length {α : Type} (p : α → Bool) (l : List α) (i : Nat)
    (h : position p l = some i) : i < l.length := by
  induction l generalizing i with
  | nil => simp [position] at h
  | cons x xs ih =>
      unfold position at h
      by_cases hp : p x = true
      · rw [if_pos hp] at h
        injection h with h
        simp [← h]
      · rw [if_neg hp] at h
        cases hpos : position p xs with
        | none => rw [hpos] at h; simp at h
        | some j =>
            rw [hpos] at h
            injection h with h
            have := ih j hpos
            simp [← h]
            omega

/-- Key events of the list readers: cursor movement, cancellation, or any
other ignored key; the end of the list stands for `Enter`. -/
inductive LKey where
  | up
  | down
  | ctrlC
  | other
  deriving DecidableEq, Repr

/-- Outcome of the single-choice prompt: a chosen value, user cancellation,
or an out-of-bounds indexing panic. -/
inductive ListOutcome where
  | ok (v : String)
  | cancelled
  | panic
  deriving DecidableEq, Repr

namespace ListReader

/-- The event loop of `ListReader::read`: wrap-around cursor movement until
`Enter`; `Ctrl+C` aborts with a cancellation. -/
def loop (n : Nat) (index : Nat) : List LKey → Except ReadError Nat
  | [] => .ok index
  | .ctrlC :: _ => .error .cancelled
  | .up :: ks => loop n (if index = 0 then n - 1 else index - 1) ks
  | .down :: ks => loop n (if index = n - 1 then 0 else index + 1) ks
  | .other :: ks => loop n index ks

/-- `ListReader::read`: start the cursor on the default entry (or first
entry), run the event loop, and index the values with the final cursor —
`values[index]`, a panic when out of bounds. -/
def read (s : ListSetting) (events : List LKey) : ListOutcome :=
  match loop s.values.length
      ((position (fun v => s.default == some v) s.values).getD 0) events with
  | .error _ => .cancelled
  | .ok index =>
      match s.values.get? index with
      | some v => .ok v
      | none => .panic

/-- Helper: with a positive length, the event loop keeps the cursor within
bounds. -/
theorem loop_lt (n : Nat) (hn : 0 < n) (events : List LKey) :
    ∀ index, index < n → ∀ j, loop n index events = .ok j → j < n := by
  induction events with
  | nil =>
      intro index hi j h
      injection h with h
      rw [← h]; exact hi
  | cons k ks ih =>
      intro index hi j h
      cases k with
      | ctrlC => exact absurd h (by simp [loop])
      | up =>
          refine ih _ ?_ j h
          by_cases h0 : index = 0
          · rw [if_pos h0]; omega
          · rw [if_neg h0]; omega
      | down =>
          refine ih _ ?_ j h
          by_cases h0 : index = n - 1
          · rw [if_pos h0]; omega
          · rw [if_neg h0]; omega
      | other => exact ih index hi j h

end ListReader

/-! ## Claim C10 — single-choice prompt totality -/

/-- Counterexample to C10 as stated: an empty-values list setting passes
load-time validation (which only constrains a declared default), yet the
prompt panics on confirmation — `values[0]` is out of bounds — instead of
returning an element of the values set. -/
theorem list_reader_empty_panics_cex :
    RepoSetting.validate ⟨"choose one", none, .list ⟨[], none⟩⟩ = none ∧
    ListReader.read ⟨[], none⟩ [] = .panic := ⟨rfl, rfl⟩

/-- C10 as amended: for every `List` setting that passes load-time
validation and declares at least one value, the prompt never panics, and
when it returns a value (rather than a cancellation) that value is one of
the declared values. -/
theorem list_reader_nonempty_returns_value (s : ListSetting) (d : String)
    (c : Option String)
    (hval : RepoSetting.validate ⟨d, c, .list s⟩ = none)
    (hne : s.values ≠ []) (events : List LKey) :
    ListReader.read s events ≠ .panic ∧
    ∀ v, ListReader.read s events = .ok v → v ∈ s.values := by
  have hn : 0 < s.values.length := List.length_pos.mpr hne
  have hstart : (position (fun v => s.default == some v) s.values).getD 0 <
      s.values.length := by
    cases hpos : position (fun v => s.default == some v) s.values with
    | none => simpa using hn
    | some i => simpa using position_lt_length _ _ _ hpos
  have hread : ∀ v, ListReader.read s events = .ok v → v ∈ s.values := by
    intro v hv
    cases hloop : ListReader.loop s.values.length
        ((position (fun v => s.default == some v) s.values).getD 0) events with
    | error e => simp [ListReader.read, hloop] at hv
    | ok j =>
        simp only [ListReader.read, hloop] at hv
        cases hget : s.values.get? j with
        | none => rw [hget] at hv; simp at hv
        | some w =>
            rw [hget] at hv
            simp only [ListOutcome.ok.injEq] at hv
            rw [← hv]
            exact List.get?_mem hget
  refine ⟨?_, hread⟩
  intro hpanic
  cases hloop : ListReader.loop s.values.length
      ((position (fun v => s.default == some v) s.values).getD 0) events with
  | error e => simp [ListReader.read, hloop] at hpanic
  | ok j =>
      simp only [ListReader.read, hloop] at hpanic
      have hj : j < s.values.length :=
        ListReader.loop_lt s.values.length hn events _ hstart j hloop
      cases hget : s.values.get? j with
      | none =>
          rw [List.get?_eq_none] at hget
          omega
      | some w => rw [hget] at hpanic; simp at hpanic

/-- Witness for the amended C10: on `["bin", "lib"]` with no default, one
`Down` key then `Enter` selects `"lib"`, an element of the values. -/
theorem list_reader_nonempty_returns_value_witness :
    ListReader.read ⟨["bin", "lib"], none⟩ [.down] ≠ .panic ∧
    "lib" ∈ ["bin", "lib"] :=
  ⟨(list_reader_nonempty_returns_value ⟨["bin", "lib"], none⟩ "crate type"
      none rfl (by simp) [.down]).1,
   (list_reader_nonempty_returns_value ⟨["bin", "lib"], none⟩ "crate type"
      none rfl (by simp) [.down]).2 "lib" rfl⟩

/-! ## Multi-list reader (`src/settings/repo/multi_list_reader.rs`)

The multi-selection prompt keeps a cursor and a selection set of indices
(`HashSet<usize>`, here `Finset ℕ`).  `Space`/`Tab` toggles the index under
the cursor, `Up`/`Down` move with wrap-around, `Ctrl+C` cancels, `Enter`
finalises; the result is collected by enumerating the declared values and
keeping those whose index is selected.  As for the list reader, the
wrap-around `len - 1` is modelled with truncated `Nat` subtraction (the
empty-values edge where Rust would panic in debug builds affects no
returned value, since no index selects a value there). -/

/-- Key events of the multi-selection prompt. -/
inductive MKey where
  | up
  | down
  | toggle
  | ctrlC
  | other
  deriving DecidableEq, Repr

namespace MultiListReader

/-- The initial cursor and selection: the cursor on the first value
contained in the default set (or 0), the selection holding exactly the
indices of values contained in the default set; both empty without a
default. -/
def initState (s : MultiListSetting) : Nat × Finset Nat :=
  match s.default with
  | some ds =>
      ((position (fun v => ds.contains v) s.values).getD 0,
       (s.values.enum.filterMap
         (fun p => if ds.contains p.2 then some p.1 else none)).toFinset)
  | none => (0, ∅)

/-- One key event: wrap-around cursor movement, or toggling the cursor's
index in the selection (`if !insert(index) { remove(&index) }`). -/
def step (n : Nat) (st : Nat × Finset Nat) : MKey → Nat × Finset Nat
  | .up => (if st.1 = 0 then n - 1 else st.1 - 1, st.2)
  | .down => (if st.1 = n - 1 then 0 else st.1 + 1, st.2)
  | .toggle =>
      (st.1, if st.1 ∈ st.2 then st.2.erase st.1 else insert st.1 st.2)
  | .ctrlC => st
  | .other => st

/-- The event loop of `MultiListReader::read` until `Enter` (end of the
event list); `Ctrl+C` aborts with a cancellation. -/
def loop (n : Nat) (st : Nat × Finset Nat) :
    List MKey → Except ReadError (Nat × Finset Nat)
  | [] => .ok st
  | .ctrlC :: _ => .error .cancelled
  | k :: ks => loop n (step n st k) ks

/-- The final collection: enumerate the declared values and keep those
whose index is in the selection — declared display order by construction. -/
def collectOut (values : List String) (sel : Finset Nat) : List String :=
  values.enum.filterMap (fun p => if p.1 ∈ sel then some p.2 else none)

/-- `MultiListReader::read`. -/
def read (s : MultiListSetting) (events : List MKey) :
    Except ReadError (List String) :=
  match loop s.values.length (initState s) events with
  | .error e => .error e
  | .ok st => .ok (collectOut s.values st.2)

end MultiListReader

/-- Helper: the enumerate-and-filter collection is a sublist of the values,
whatever the selection — the output preserves declared order. -/
theorem collectOut_sublist_enumFrom (sel : Finset Nat) :
    ∀ (k : Nat) (xs : List String),
      ((List.enumFrom k xs).filterMap
        (fun p => if p.1 ∈ sel then some p.2 else none)).Sublist xs := by
  intro k xs
  induction xs generalizing k with
  | nil => simp
  | cons x xs ih =>
      simp only [List.enumFrom, List.filterMap_cons]
      by_cases hk : k ∈ sel
      · rw [if_pos hk]
        exact List.Sublist.cons₂ x (ih (k + 1))
      · rw [if_neg hk]
        exact List.Sublist.cons x (ih (k + 1))

/-- Helper: membership characterisation of the index set collected from the
enumerated values. -/
theorem mem_enum_filterMap_idx (pred : String → Bool) :
    ∀ (k : Nat) (xs : List String) (i : Nat),
      i ∈ (List.enumFrom k xs).filterMap
        (fun p => if pred p.2 then some p.1 else none) ↔
      ∃ j v, i = k + j ∧ xs.get? j = some v ∧ pred v = true := by
  intro k xs
  induction xs generalizing k with
  | nil =>
      intro i
      constructor
      · intro h; simp at h
      · rintro ⟨j, v, -, hget, -⟩; simp at hget
  | cons x xs ih =>
      intro i
      simp only [List.enumFrom, List.filterMap_cons]
      constructor
      · intro h
        by_cases hp : pred x = true
        · rw [if_pos hp] at h
          rcases List.mem_cons.mp h with h1 | h2
          · exact ⟨0, x, by omega, rfl, hp⟩
          · obtain ⟨j, v, hi, hget, hpred⟩ := (ih (k + 1) i).mp h2
            exact ⟨j + 1, v, by omega, hget, hpred⟩
        · rw [if_neg hp] at h
          obtain ⟨j, v, hi, hget, hpred⟩ := (ih (k + 1) i).mp h
          exact ⟨j + 1, v, by omega, hget, hpred⟩
      · rintro ⟨j, v, hi, hget, hpred⟩
        cases j with
        | zero =>
            injection hget with hget
            have hik : i = k := by omega
            subst hik
            rw [← hget] at hpred
            simp [hpred]
        | succ j' =>
            have hmem : i ∈ (List.enumFrom (k + 1) xs).filterMap
                (fun p => if pred p.2 then some p.1 else none) :=
              (ih (k + 1) i).mpr ⟨j', v, by omega, hget, hpred⟩
            by_cases hp : pred x = true
            · rw [if_pos hp]
              exact List.mem_cons_of_mem _ hmem
            · rw [if_neg hp]
              exact hmem

/-- Helper: when the selection agrees pointwise with a predicate on the
values, collecting the selected indices is filtering the values by the
predicate. -/
theorem collect_eq_filter (sel : Finset Nat) (pred : String → Bool) :
    ∀ (k : Nat) (xs : List String),
      (∀ j v, xs.get? j = some v → ((k + j) ∈ sel ↔ pred v = true)) →
      (List.enumFrom k xs).filterMap
        (fun p => if p.1 ∈ sel then some p.2 else none) = xs.filter pred := by
  intro k xs
  induction xs generalizing k with
  | nil => intro _; simp
  | cons x xs ih =>
      intro h
      have hx := h 0 x rfl
      rw [Nat.add_zero] at hx
      have hrest : (List.enumFrom (k + 1) xs).filterMap
          (fun p => if p.1 ∈ sel then some p.2 else none) = xs.filter pred := by
        refine ih (k + 1) ?_
        intro j v hget
        have := h (j + 1) v hget
        rwa [show k + (j + 1) = k + 1 + j by omega] at this
      simp only [List.enumFrom, List.filterMap_cons, List.filter_cons]
      by_cases hp : pred x = true
      · rw [if_pos (hx.mpr hp), if_pos hp, hrest]
      · have : ¬ k ∈ sel := fun hk => hp (hx.mp hk)
        rw [if_neg this, if_neg hp, hrest]

/-! ## Claim C8 — multi-selection output in declared order -/

/-- C8: whatever the event sequence, the returned value of the
multi-selection prompt lists the selected entries in the order they appear
in the setting's declared values (it is a sublist of them); it is a
function of the final selection set alone, so it is independent of the
order in which the user toggled entries; and the selection is seeded with
exactly the default entries — confirming immediately returns precisely the
values contained in the default set, in declared order. -/
theorem multi_list_declared_order (s : MultiListSetting)
    (events : List MKey) (out : List String)
    (h : MultiListReader.read s events = .ok out) :
    out.Sublist s.values ∧
    (∀ events₂ st st₂,
      MultiListReader.loop s.values.length (MultiListReader.initState s)
        events = .ok st →
      MultiListReader.loop s.values.length (MultiListReader.initState s)
        events₂ = .ok st₂ →
      st.2 = st₂.2 →
      MultiListReader.read s events₂ = .ok out) ∧
    (∀ ds, s.default = some ds →
      MultiListReader.read s [] = .ok (s.values.filter (fun v => ds.contains v))) := by
  refine ⟨?_, ?_, ?_⟩
  · cases hloop : MultiListReader.loop s.values.length
        (MultiListReader.initState s) events with
    | error e => simp [MultiListReader.read, hloop] at h
    | ok st =>
        simp only [MultiListReader.read, hloop, Except.ok.injEq] at h
        rw [← h]
        exact collectOut_sublist_enumFrom st.2 0 s.values
  · intro events₂ st st₂ hloop hloop₂ hsel
    cases hloop' : MultiListReader.loop s.values.length
        (MultiListReader.initState s) events with
    | error e => rw [hloop'] at hloop; exact Except.noConfusion hloop
    | ok st' =>
        rw [hloop'] at hloop
        injection hloop with hloop
        simp only [MultiListReader.read, hloop', Except.ok.injEq] at h
        simp only [MultiListReader.read, hloop₂, Except.ok.injEq]
        rw [← h, hloop]
        unfold MultiListReader.collectOut
        rw [hsel]
  · intro ds hds
    have hinit : MultiListReader.initState s =
        ((position (fun v => ds.contains v) s.values).getD 0,
         (s.values.enum.filterMap
           (fun p => if ds.contains p.2 then some p.1 else none)).toFinset) := by
      unfold MultiListReader.initState
      rw [hds]
    simp only [MultiListReader.read, MultiListReader.loop, hinit,
      Except.ok.injEq]
    unfold MultiListReader.collectOut
    have hsel : ∀ j v, s.values.get? j = some v →
        ((0 + j) ∈ (s.values.enum.filterMap
          (fun p => if ds.contains p.2 then some p.1 else none)).toFinset ↔
         ds.contains v = true) := by
      intro j v hget
      rw [List.mem_toFinset]
      constructor
      · intro hmem
        obtain ⟨j', v', hij, hget', hpred⟩ :=
          (mem_enum_filterMap_idx (fun v => ds.contains v) 0 s.values
            (0 + j)).mp (by simpa [List.enum] using hmem)
        have : j = j' := by omega
        rw [this, hget'] at hget
        injection hget with hget
        rw [← hget]
        exact hpred
      · intro hpred
        have := (mem_enum_filterMap_idx (fun v => ds.contains v) 0 s.values
          (0 + j)).mpr ⟨j, v, rfl, hget, hpred⟩
        simpa [List.enum] using this
    have := collect_eq_filter
      ((s.values.enum.filterMap
        (fun p => if ds.contains p.2 then some p.1 else none)).toFinset)
      (fun v => ds.contains v) 0 s.values hsel
    simpa [List.enum] using this

/-- Witness for C8: values `["a", "b", "c"]` with default `["c", "a"]`;
toggling `b` (cursor starts on `a`: down then toggle) returns
`["a", "b", "c"]` in declared order, and an immediate confirm returns
`["a", "c"]` — the default entries in declared order, not in the default
set's own order. -/
theorem multi_list_declared_order_witness :
    MultiListReader.read ⟨["a", "b", "c"], some ["c", "a"]⟩
      [.down, .toggle] = .ok ["a", "b", "c"] ∧
    (["a", "b", "c"] : List String).Sublist ["a", "b", "c"] ∧
    MultiListReader.read ⟨["a", "b", "c"], some ["c", "a"]⟩ [] =
      .ok ["a", "c"] := by
  have h0 : MultiListReader.read ⟨["a", "b", "c"], some ["c", "a"]⟩
      [.down, .toggle] = .ok ["a", "b", "c"] := by rfl
  have h := multi_list_declared_order ⟨["a", "b", "c"], some ["c", "a"]⟩
    [.down, .toggle] ["a", "b", "c"] h0
  refine ⟨h0, h.1, ?_⟩
  have h2 := h.2.2 ["c", "a"] rfl
  simpa using h2

/-! ## Context building (`fill_context` in `src/settings/repo/mod.rs`)

`fill_context` walks the declared settings in order.  A setting with a
condition renders it through the template engine against the context built
so far; a falsy result skips the setting (`continue`).  Otherwise the
external default for the setting's name is taken out of the defaults map,
the value is resolved through `run` with the type-specific load/prompt
pair, and the result is inserted into the context under the setting's
name.  The context is the append-only ordered mapping the spec describes;
the observable prompt/load/insert steps are traced as `FillEvent`s. -/

/-- The template-rendering context: an ordered, append-only mapping from
names to resolved values. -/
abbrev Ctx := List (String × Value)

/-- `Setting::set_default` for `BoolSetting`. -/
def BoolSetting.set_default (s : BoolSetting) (d : Bool) : BoolSetting :=
  { s with default := some d }

/-- `Setting::set_default` for `StringSetting`. -/
def StringSetting.set_default (s : StringSetting) (d : String) : StringSetting :=
  { s with default := some d }

/-- `Setting::set_default` for `NumberSetting<T>`. -/
def NumberSetting.set_default {T : Type} (s : NumberSetting T) (d : T) :
    NumberSetting T :=
  { s with default := some d }

/-- `Setting::set_default` for `ListSetting`. -/
def ListSetting.set_default (s : ListSetting) (d : String) : ListSetting :=
  { s with default := some d }

/-- `Setting::set_default` for `MultiListSetting`. -/
def MultiListSetting.set_default (s : MultiListSetting) (d : List String) :
    MultiListSetting :=
  { s with default := some d }

/-- The six type-specific interactive prompts (`prompts.rs`), external
collaborators kept abstract. -/
structure Prompts where
  bool : String → BoolSetting → Except AppError Bool
  string : String → StringSetting → Except AppError String
  number : String → NumberSetting Int → Except AppError Int
  float : String → NumberSetting Rat → Except AppError Rat
  list : String → ListSetting → Except AppError String
  multiList : String → MultiListSetting → Except AppError (List String)

/-- Observable steps of `fill_context`, tagged with the setting's name. -/
inductive FillEvent where
  | loadedDefault (name : String)
  | prompted (name : String)
  | inserted (name : String)
  deriving DecidableEq, Repr

/-- The setting name an event concerns. -/
def eventName : FillEvent → String
  | .loadedDefault n => n
  | .prompted n => n
  | .inserted n => n

/-- Tag the events of one `run` invocation with the setting's name. -/
def tagEvents (name : String) (evs : List RunEvent) : List FillEvent :=
  evs.map (fun e => match e with
    | .loadedDefault => .loadedDefault name
    | .prompted => .prompted name)

/-- `HashMap::remove`: take the entry for a name out of the defaults map,
returning it (if present) and the remaining map. -/
def removeAssoc (name : String) :
    List (String × DefaultSetting) →
    Option DefaultSetting × List (String × DefaultSetting)
  | [] => (none, [])
  | (k, v) :: rest =>
      if k = name then (some v, rest)
      else ((removeAssoc name rest).1, (k, v) :: (removeAssoc name rest).2)

/-- The six-way `match setting.ty` of `fill_context`: resolve the value via
`run` with the matching `defaults::get_*`, `set_default` and prompt. -/
def applySetting (P : Prompts) (setting : RepoSetting)
    (d : Option DefaultSetting) : Except AppError Value × List RunEvent :=
  match setting.ty with
  | .bool s =>
      let r := run s setting.description d get_bool BoolSetting.set_default
        P.bool
      (r.1.map Value.bool, r.2)
  | .string s =>
      let r := run s setting.description d get_string
        StringSetting.set_default P.string
      (r.1.map Value.str, r.2)
  | .number s =>
      let r := run s setting.description d get_number
        NumberSetting.set_default P.number
      (r.1.map Value.num, r.2)
  | .float s =>
      let r := run s setting.description d get_float
        NumberSetting.set_default P.float
      (r.1.map Value.float, r.2)
  | .list s =>
      let r := run s setting.description d get_list ListSetting.set_default
        P.list
      (r.1.map Value.list, r.2)
  | .multiList s =>
      let r := run s setting.description d get_multi_list
        MultiListSetting.set_default P.multiList
      (r.1.map Value.multiList, r.2)

/-- The non-skipped part of one loop iteration of `fill_context`: take the
external default out of the map, resolve the value, insert it under the
setting's name. -/
def fillProcess (P : Prompts)
    (ctx : Ctx) (defaults : List (String × DefaultSetting)) (name : String)
    (setting : RepoSetting) :
    Except AppError (Option (Ctx × List (String × DefaultSetting) ×
      List FillEvent)) :=
  match applySetting P setting (removeAssoc name defaults).1 with
  | (.error e, _) => .error e
  | (.ok v, revs) =>
      .ok (some (ctx ++ [(name, v)], (removeAssoc name defaults).2,
        tagEvents name revs ++ [FillEvent.inserted name]))

/-- One loop iteration of `fill_context`: render the condition (if any)
against the context built so far — a non-boolean or failing render is an
error, a falsy result skips the setting (`ok none`) — otherwise process
it. -/
def fillStep (oneOff : String → Ctx → Option String) (P : Prompts)
    (ctx : Ctx) (defaults : List (String × DefaultSetting)) (name : String)
    (setting : RepoSetting) :
    Except AppError (Option (Ctx × List (String × DefaultSetting) ×
      List FillEvent)) :=
  match setting.condition with
  | some c =>
      match oneOff c ctx with
      | none => .error (.msg "condition render failed")
      | some r =>
          match parseBool (strTrim r) with
          | none => .error (.msg "condition is not a boolean")
          | some false => .ok none
          | some true => fillProcess P ctx defaults name setting
  | none => fillProcess P ctx defaults name setting

/-- The loop of `fill_context` over the declared settings, threading the
context and the defaults map and collecting the event trace. -/
def fillGo (oneOff : String → Ctx → Option String) (P : Prompts) :
    Ctx → List (String × DefaultSetting) → List (String × RepoSetting) →
    Except AppError (Ctx × List (String × DefaultSetting) × List FillEvent)
  | ctx, defaults, [] => .ok (ctx, defaults, [])
  | ctx, defaults, (name, setting) :: rest =>
      match fillStep oneOff P ctx defaults name setting with
      | .error e => .error e
      | .ok none => fillGo oneOff P ctx defaults rest
      | .ok (some (ctx', defaults', evs)) =>
          match fillGo oneOff P ctx' defaults' rest with
          | .error e => .error e
          | .ok (ctxF, defsF, evs₂) => .ok (ctxF, defsF, evs ++ evs₂)

/-- `fill_context`: run the loop, returning the completed context and the
event trace (the consumed defaults map is dropped, as in the source). -/
def fill_context (oneOff : String → Ctx → Option String) (P : Prompts)
    (ctx : Ctx) (args : List (String × RepoSetting))
    (defaults : List (String × DefaultSetting)) :
    Except AppError (Ctx × List FillEvent) :=
  match fillGo oneOff P ctx defaults args with
  | .error e => .error e
  | .ok (ctxF, _, evs) => .ok (ctxF, evs)

/-- Helper: the loop over an appended settings list is the loop over the
first part followed by the loop over the second, events concatenated. -/
theorem fillGo_append (oneOff : String → Ctx → Option String) (P : Prompts)
    (as bs : List (String × RepoSetting)) :
    ∀ (ctx : Ctx) (defaults : List (String × DefaultSetting)),
    fillGo oneOff P ctx defaults (as ++ bs) =
      match fillGo oneOff P ctx defaults as with
      | .error e => .error e
      | .ok (ctx', defs', evs) =>
          match fillGo oneOff P ctx' defs' bs with
          | .error e => .error e
          | .ok (ctxF, defsF, evs₂) => .ok (ctxF, defsF, evs ++ evs₂) := by
  induction as with
  | nil =>
      intro ctx defaults
      rw [List.nil_append]
      cases h : fillGo oneOff P ctx defaults bs with
      | error e => simp only [fillGo, h]
      | ok r =>
          obtain ⟨ctxF, defsF, evs₂⟩ := r
          simp [fillGo, h]
  | cons hd as ih =>
      intro ctx defaults
      obtain ⟨name, setting⟩ := hd
      rw [List.cons_append]
      cases hstep : fillStep oneOff P ctx defaults name setting with
      | error e => simp only [fillGo, hstep]
      | ok o =>
          cases o with
          | none =>
              simp only [fillGo, hstep]
              exact ih ctx defaults
          | some r =>
              obtain ⟨ctx', defaults', evs⟩ := r
              simp only [fillGo, hstep]
              rw [ih ctx' defaults']
              cases fillGo oneOff P ctx' defaults' as with
              | error e => rfl
              | ok r2 =>
                  obtain ⟨ctxM, defsM, evsM⟩ := r2
                  simp only []
                  cases fillGo oneOff P ctxM defsM bs with
                  | error e => rfl
                  | ok r3 =>
                      obtain ⟨ctxF, defsF, evsF⟩ := r3
                      simp [List.append_assoc]

/-- Helper: a processed step's events all carry the setting's name, and it
extends the context keys by exactly that name. -/
theorem fillStep_some_spec (oneOff : String → Ctx → Option String)
    (P : Prompts) (ctx : Ctx) (defaults : List (String × DefaultSetting))
    (name : String) (setting : RepoSetting) (ctx' : Ctx)
    (defaults' : List (String × DefaultSetting)) (evs : List FillEvent)
    (h : fillStep oneOff P ctx defaults name setting =
      .ok (some (ctx', defaults', evs))) :
    (∀ ev ∈ evs, eventName ev = name) ∧
    ctx'.map Prod.fst = ctx.map Prod.fst ++ [name] := by
  have hproc : fillProcess P ctx defaults name setting =
      .ok (some (ctx', defaults', evs)) →
      (∀ ev ∈ evs, eventName ev = name) ∧
      ctx'.map Prod.fst = ctx.map Prod.fst ++ [name] := by
    intro hp
    cases happ : applySetting P setting (removeAssoc name defaults).1 with
    | mk res revs =>
        cases res with
        | error e =>
            simp only [fillProcess, happ] at hp
            exact Except.noConfusion hp
        | ok v =>
            simp only [fillProcess, happ] at hp
            injection hp with hp
            injection hp with hp
            have hctx : ctx ++ [(name, v)] = ctx' := congrArg Prod.fst hp
            have hevs : tagEvents name revs ++ [FillEvent.inserted name]
                = evs := congrArg (fun p => p.2.2) hp
            constructor
            · intro ev hev
              rw [← hevs] at hev
              rcases List.mem_append.mp hev with h1 | h2
              · obtain ⟨e, -, he⟩ := List.mem_map.mp h1
                cases e <;> rw [← he] <;> rfl
              · rcases List.mem_cons.mp h2 with h3 | h4
                · rw [h3]; rfl
                · simp at h4
            · rw [← hctx]
              simp
  cases hc : setting.condition with
  | none =>
      simp only [fillStep, hc] at h
      exact hproc h
  | some c =>
      simp only [fillStep, hc] at h
      cases ho : oneOff c ctx with
      | none =>
          simp only [ho] at h
          exact Except.noConfusion h
      | some r =>
          simp only [ho] at h
          cases hp : parseBool (strTrim r) with
          | none =>
              simp only [hp] at h
              exact Except.noConfusion h
          | some b =>
              simp only [hp] at h
              cases b with
              | false => simp at h
              | true => exact hproc h

/-- Helper: every event of a loop run names one of the settings, and every
key of the final context was a key already or names one of the settings. -/
theorem fillGo_names (oneOff : String → Ctx → Option String) (P : Prompts)
    (args : List (String × RepoSetting)) :
    ∀ (ctx : Ctx) (defaults : List (String × DefaultSetting)) (ctxF : Ctx)
      (defsF : List (String × DefaultSetting)) (evs : List FillEvent),
    fillGo oneOff P ctx defaults args = .ok (ctxF, defsF, evs) →
    (∀ ev ∈ evs, eventName ev ∈ args.map Prod.fst) ∧
    (∀ k, k ∈ ctxF.map Prod.fst →
      k ∈ ctx.map Prod.fst ∨ k ∈ args.map Prod.fst) := by
  induction args with
  | nil =>
      intro ctx defaults ctxF defsF evs h
      simp only [fillGo] at h
      injection h with h
      have h1 : ctx = ctxF := congrArg Prod.fst h
      have h3 : ([] : List FillEvent) = evs := congrArg (fun p => p.2.2) h
      refine ⟨fun ev hev => ?_, fun k hk => ?_⟩
      · rw [← h3] at hev; simp at hev
      · rw [← h1] at hk; exact Or.inl hk
  | cons hd args ih =>
      intro ctx defaults ctxF defsF evs h
      obtain ⟨name, setting⟩ := hd
      cases hstep : fillStep oneOff P ctx defaults name setting with
      | error e =>
          simp only [fillGo, hstep] at h
          exact Except.noConfusion h
      | ok o =>
          cases o with
          | none =>
              simp only [fillGo, hstep] at h
              obtain ⟨hevs, hkeys⟩ := ih ctx defaults ctxF defsF evs h
              refine ⟨fun ev hev => ?_, fun k hk => ?_⟩
              · exact List.mem_cons_of_mem _ (hevs ev hev)
              · rcases hkeys k hk with h1 | h2
                · exact Or.inl h1
                · exact Or.inr (List.mem_cons_of_mem _ h2)
          | some r =>
              obtain ⟨ctx', defaults', evs₁⟩ := r
              simp only [fillGo, hstep] at h
              cases hrest : fillGo oneOff P ctx' defaults' args with
              | error e =>
                  rw [hrest] at h
                  exact Except.noConfusion h
              | ok r2 =>
                  obtain ⟨ctxM, defsM, evsM⟩ := r2
                  simp only [hrest] at h
                  injection h with h
                  have hc1 : ctxM = ctxF := congrArg Prod.fst h
                  have hc3 : evs₁ ++ evsM = evs := congrArg (fun p => p.2.2) h
                  obtain ⟨hstepEvs, hstepKeys⟩ :=
                    fillStep_some_spec oneOff P ctx defaults name setting
                      ctx' defaults' evs₁ hstep
                  obtain ⟨hevs, hkeys⟩ := ih ctx' defaults' ctxM defsM evsM hrest
                  subst hc1; subst hc3
                  refine ⟨fun ev hev => ?_, fun k hk => ?_⟩
                  · rcases List.mem_append.mp hev with h1 | h2
                    · rw [List.map_cons]
                      exact (hstepEvs ev h1) ▸ List.mem_cons_self _ _
                    · exact List.mem_cons_of_mem _ (hevs ev h2)
                  · rcases hkeys k hk with h1 | h2
                    · rw [hstepKeys] at h1
                      rcases List.mem_append.mp h1 with h3 | h4
                      · exact Or.inl h3
                      · rcases List.mem_cons.mp h4 with h5 | h6
                        · exact Or.inr (h5 ▸ List.mem_cons_self _ _)
                        · simp at h6
                    · exact Or.inr (List.mem_cons_of_mem _ h2)

/-! ## Claim C6 — falsy activation condition skips the setting -/

/-- C6: a setting whose activation condition renders falsy against the
context built so far is skipped entirely — no default is loaded, no prompt
is invoked, its name is never inserted — and (its name being fresh) the
final context contains no entry for it. -/
theorem fill_context_skips_falsy (oneOff : String → Ctx → Option String)
    (P : Prompts) (ctx₀ : Ctx) (defaults : List (String × DefaultSetting))
    (args pre post : List (String × RepoSetting)) (name : String)
    (setting : RepoSetting) (c : String)
    (hargs : args = pre ++ (name, setting) :: post)
    (hcond : setting.condition = some c)
    (ctxMid : Ctx) (defsMid : List (String × DefaultSetting))
    (evsPre : List FillEvent)
    (hpre : fillGo oneOff P ctx₀ defaults pre = .ok (ctxMid, defsMid, evsPre))
    (r : String) (hone : oneOff c ctxMid = some r)
    (hfalse : parseBool (strTrim r) = some false)
    (hnot0 : name ∉ ctx₀.map Prod.fst)
    (hnotpre : name ∉ pre.map Prod.fst)
    (hnotpost : name ∉ post.map Prod.fst)
    (ctxF : Ctx) (evs : List FillEvent)
    (hrun : fill_context oneOff P ctx₀ args defaults = .ok (ctxF, evs)) :
    (∀ ev ∈ evs, eventName ev ≠ name) ∧ name ∉ ctxF.map Prod.fst := by
  have hstep : fillStep oneOff P ctxMid defsMid name setting = .ok none := by
    simp only [fillStep, hcond, hone, hfalse]
  obtain ⟨defsF, hgo⟩ : ∃ defsF,
      fillGo oneOff P ctx₀ defaults args = .ok (ctxF, defsF, evs) := by
    cases hg : fillGo oneOff P ctx₀ defaults args with
    | error e =>
        simp only [fill_context, hg] at hrun
        exact Except.noConfusion hrun
    | ok r2 =>
        obtain ⟨cF, dF, eF⟩ := r2
        simp only [fill_context, hg] at hrun
        injection hrun with hrun
        refine ⟨dF, ?_⟩
        have h1 : cF = ctxF := congrArg Prod.fst hrun
        have h2 : eF = evs := congrArg Prod.snd hrun
        rw [← h1, ← h2]
  rw [hargs, fillGo_append] at hgo
  simp only [hpre] at hgo
  simp only [fillGo, hstep] at hgo
  cases hpost : fillGo oneOff P ctxMid defsMid post with
  | error e =>
      simp only [hpost] at hgo
      exact Except.noConfusion hgo
  | ok r2 =>
      obtain ⟨ctxP, defsP, evsP⟩ := r2
      simp only [hpost] at hgo
      injection hgo with hgo
      have hc1 : ctxP = ctxF := congrArg Prod.fst hgo
      have hc3 : evsPre ++ evsP = evs := congrArg (fun p => p.2.2) hgo
      obtain ⟨hevsPre, hkeysPre⟩ :=
        fillGo_names oneOff P pre ctx₀ defaults ctxMid defsMid evsPre hpre
      obtain ⟨hevsPost, hkeysPost⟩ :=
        fillGo_names oneOff P post ctxMid defsMid ctxP defsP evsP hpost
      constructor
      · intro ev hev heq
        rw [← hc3] at hev
        rcases List.mem_append.mp hev with h1 | h2
        · exact hnotpre (heq ▸ hevsPre ev h1)
        · exact hnotpost (heq ▸ hevsPost ev h2)
      · intro hk
        rw [← hc1] at hk
        rcases hkeysPost name hk with h1 | h2
        · rcases hkeysPre name h1 with h3 | h4
          · exact hnot0 h3
          · exact hnotpre h4
        · exact hnotpost h2

/-- Witness for C6: with `crate_bin = false` in the context and a setting
`crate_docs` conditioned on `crate_bin` (the one-off evaluation yielding
`"false"`), the run ends with no event and the final context — evaluated
concretely — has no `crate_docs` entry. -/
theorem fill_context_skips_falsy_witness :
    fill_context (fun _ _ => some "false")
      ⟨fun _ _ => .ok true, fun _ _ => .ok "", fun _ _ => .ok 0,
       fun _ _ => .ok 0, fun _ _ => .ok "", fun _ _ => .ok []⟩
      [("crate_bin", .bool false)]
      [("crate_docs", ⟨"build docs", some "crate_bin", .bool ⟨none⟩⟩)] [] =
      .ok ([("crate_bin", Value.bool false)], []) ∧
    ("crate_docs" ∈
      List.map Prod.fst [("crate_bin", Value.bool false)]) = False :=
  ⟨rfl,
   eq_false ((fill_context_skips_falsy
    (fun _ _ => some "false")
    ⟨fun _ _ => .ok true, fun _ _ => .ok "", fun _ _ => .ok 0,
     fun _ _ => .ok 0, fun _ _ => .ok "", fun _ _ => .ok []⟩
    [("crate_bin", .bool false)] []
    [("crate_docs", ⟨"build docs", some "crate_bin", .bool ⟨none⟩⟩)]
    [] [] "crate_docs" ⟨"build docs", some "crate_bin", .bool ⟨none⟩⟩
    "crate_bin" rfl rfl [("crate_bin", .bool false)] [] [] rfl "false" rfl
    rfl (by simp) (by simp) (by simp) [("crate_bin", .bool false)] [] rfl).2)⟩

/-! ## Claim C2 — load-time numeric validation -/

/-- C2: for every `Number` and `Float` setting, `validate()` errors when
`min >= max`; with a default present it errors when `default == max` but
succeeds when `default == min` (the load-time range check is the half-open
interval `[min, max)`).  Stated for both instantiations of the generic
`validate_number` used by `RepoSetting::validate`. -/
theorem validate_number_halfopen (sInt : NumberSetting Int)
    (sRat : NumberSetting Rat) (d : String) (c : Option String) :
    (sInt.min ≥ sInt.max →
      (RepoSetting.validate ⟨d, c, .number sInt⟩).isSome) ∧
    (sInt.default = some sInt.max →
      (RepoSetting.validate ⟨d, c, .number sInt⟩).isSome) ∧
    (sInt.min < sInt.max → sInt.default = some sInt.min →
      RepoSetting.validate ⟨d, c, .number sInt⟩ = none) ∧
    (sRat.min ≥ sRat.max →
      (RepoSetting.validate ⟨d, c, .float sRat⟩).isSome) ∧
    (sRat.default = some sRat.max →
      (RepoSetting.validate ⟨d, c, .float sRat⟩).isSome) ∧
    (sRat.min < sRat.max → sRat.default = some sRat.min →
      RepoSetting.validate ⟨d, c, .float sRat⟩ = none) := by
  have hInt : ∀ (T : Type) (inst : LinearOrder T) (s : NumberSetting T),
      (s.min ≥ s.max → (validate_number s).isSome) ∧
      (s.default = some s.max → (validate_number s).isSome) ∧
      (s.min < s.max → s.default = some s.min → validate_number s = none) := by
    intro T inst s
    refine ⟨?_, ?_, ?_⟩
    · intro h
      simp [validate_number, h]
    · intro h
      unfold validate_number
      by_cases hge : s.min ≥ s.max
      · simp [hge]
      · simp only [hge, if_false, h]
        have : ¬(s.min ≤ s.max ∧ s.max < s.max) := by
          rintro ⟨-, hlt⟩; exact lt_irrefl _ hlt
        simp [this]
    · intro hlt h
      unfold validate_number
      have hge : ¬ s.min ≥ s.max := not_le.mpr hlt
      simp only [hge, if_false, h]
      have : s.min ≤ s.min ∧ s.min < s.max := ⟨le_refl _, hlt⟩
      simp [this]
  have h1 := hInt Int inferInstance sInt
  have h2 := hInt Rat inferInstance sRat
  simpa [RepoSetting.validate] using ⟨h1.1, h1.2.1, h1.2.2, h2.1, h2.2.1, h2.2.2⟩

/-- Witness for C2 at a concrete setting: `min = 0, max = 5`, a default of
`0` (the minimum) validates, while a default of `5` (the maximum) and the
degenerate `min = max` range are rejected. -/
theorem validate_number_halfopen_witness :
    RepoSetting.validate ⟨"n", none, .number ⟨0, 5, some 0⟩⟩ = none ∧
    (RepoSetting.validate ⟨"n", none, .number ⟨0, 5, some 5⟩⟩).isSome ∧
    (RepoSetting.validate ⟨"n", none, .number ⟨5, 5, none⟩⟩).isSome := by
  refine ⟨?_, ?_, ?_⟩
  · exact (validate_number_halfopen ⟨0, 5, some 0⟩ ⟨0, 1, none⟩ "n" none).2.2.1
      (by norm_num) rfl
  · exact (validate_number_halfopen ⟨0, 5, some 5⟩ ⟨0, 1, none⟩ "n" none).2.1 rfl
  · exact (validate_number_halfopen ⟨5, 5, none⟩ ⟨0, 1, none⟩ "n" none).1
      (le_refl _)

/-! ## Claim C7 — interactive numeric range is inclusive -/

/-- C7: the interactive numeric reader accepts an empty input by returning
the default (erroring if none exists) and accepts a parsed value `v`
exactly when `min ≤ v ≤ max` (inclusive); in particular `v = max` is
accepted interactively even though a declared `default = max` is rejected
by load-time validation. -/
theorem number_reader_inclusive {T : Type} [LinearOrder T]
    (s : NumberSetting T) (v dflt : T) :
    (s.default = some dflt → NumberReader.read s .empty = .ok dflt) ∧
    (s.default = none →
      NumberReader.read s (T := T) .empty =
        .error (.invalidInput "must provide a value")) ∧
    (NumberReader.read s (.val v) = .ok v ↔ s.min ≤ v ∧ v ≤ s.max) ∧
    (s.min ≤ s.max → NumberReader.read s (.val s.max) = .ok s.max ∧
      (validate_number ⟨s.min, s.max, some s.max⟩).isSome) := by
  refine ⟨?_, ?_, ?_, ?_⟩
  · intro h; simp [NumberReader.read, h]
  · intro h; simp [NumberReader.read, h]
  · constructor
    · intro h
      unfold NumberReader.read at h
      by_cases h1 : v < s.min
      · simp [h1] at h
      · by_cases h2 : v > s.max
        · simp [h1, h2] at h
        · exact ⟨not_lt.mp h1, not_lt.mp h2⟩
    · rintro ⟨h1, h2⟩
      have h1' : ¬ v < s.min := not_lt.mpr h1
      have h2' : ¬ v > s.max := not_lt.mpr h2
      simp [NumberReader.read, h1', h2']
  · intro hle
    refine ⟨?_, ?_⟩
    · have h1 : ¬ s.max < s.min := not_lt.mpr hle
      have h2 : ¬ s.max > s.max := lt_irrefl _
      simp [NumberReader.read, h1, h2]
    · unfold validate_number
      by_cases hge : s.min ≥ s.max
      · simp [hge]
      · have : ¬(s.min ≤ s.max ∧ s.max < s.max) := by
          rintro ⟨-, hlt⟩; exact lt_irrefl _ hlt
        simp [hge, this]

/-- Witness for C7 at `min = 0, max = 5, default = 3` over `Int`: empty
input yields `3`, the boundary value `5` is accepted interactively, and the
same setting with default `5` fails load-time validation. -/
theorem number_reader_inclusive_witness :
    NumberReader.read (⟨0, 5, some 3⟩ : NumberSetting Int) .empty = .ok 3 ∧
    NumberReader.read (⟨0, 5, some 3⟩ : NumberSetting Int) (.val 5) = .ok 5 ∧
    (validate_number (⟨0, 5, some 5⟩ : NumberSetting Int)).isSome := by
  have h := number_reader_inclusive (⟨0, 5, some 3⟩ : NumberSetting Int) 5 3
  refine ⟨h.1 rfl, ?_, ?_⟩
  · exact (h.2.2.1).mpr (by norm_num)
  · exact (h.2.2.2 (by norm_num)).2

end Hatch
